import Mathlib

/-!
Shallow embedding of `src/news_scraper.py`: a news-headline scraping pipeline
(robots.txt policy gate, fetcher with politeness delay, generic anchor
extractor, keyword filter, aggregation, JSON/CSV persistence).

External collaborators (the network, `urllib.robotparser`, `requests`,
BeautifulSoup's HTML parser, the random generator) are modelled as an explicit
environment `NetEnv`; observable side effects (policy checks, HTTP GETs, the
politeness sleep) are recorded in a trace of `Effect`s.  Pure logic is
translated directly from the source.
-/

namespace NewsScraper

/-- An anchor (`<a>`) element as seen by the extractor: its text content and
its optional `href` attribute (absent attribute is `none`, as in bs4's
`item.get("href")`). -/
structure Anchor where
  text : String
  href : Option String
deriving DecidableEq, Repr

/-- A fetched document, reduced to what `scrape_headlines` observes of it:
the list of its anchor elements in document order (`soup.select("a")`). -/
def Document := List Anchor

/-- Outcome of `urllib.request.urlopen(robots_url)` inside
`RobotFileParser.read()`: the open may raise a non-HTTP network error
(`URLError`), raise an `HTTPError` carrying a status code, or return a body
that either fails `raw.decode("utf-8")` or decodes and is parsed (leniently,
never raising) into rules, a function from (user agent, url) to the
allow/deny boolean. -/
inductive UrlopenOutcome where
  | netError
  | httpError (code : Nat)
  | undecodable
  | parsed (rules : String → String → Bool)

/-- Outcome of `requests.get(url, headers, timeout=10)`: a network error /
timeout (an exception), or a response with a status code and body text. -/
inductive GetOutcome where
  | error
  | response (status : Nat) (text : String)

/-- The external world as the scraper observes it: the robots.txt urlopen
outcome per robots URL, the HTTP GET outcome per (url, user agent), and the
HTML parser mapping body text to its anchor elements. -/
structure NetEnv where
  robotsRead : String → UrlopenOutcome
  httpGet : String → String → GetOutcome
  parseHtml : String → List Anchor

/-- Observable side effects of a run, in order: the robots policy
consultation (with the user agent it is computed for), an HTTP GET for a page
(with the user agent header sent), and the politeness sleep
`time.sleep(random.uniform(lo, hi))` recorded with the bounds passed to
`random.uniform`. -/
inductive Effect where
  | policyCheck (user_agent url : String)
  | httpGet (url user_agent : String)
  | sleepUniform (lo hi : Nat)
deriving DecidableEq, Repr

/-- A headline record as built by `scrape_headlines`:
`{"source": ..., "title": ..., "url": ..., "time": None}`. -/
structure HeadlineRecord where
  source : String
  title : String
  url : String
  time : Option String
deriving DecidableEq, Repr

/-! ### Model of the Python string primitives

The Python string methods the scraper relies on (`str.split`, `str.strip`,
`str.lower`, `str.startswith`, the `in` operator, `str.join`) are modelled
by structurally recursive functions over the character list of a `String`,
with Python's semantics. -/

/-- One step list of `str.split(sep)` with explicit fuel (the fuel is set to
the length of the string, which bounds the number of steps). -/
def splitOnAuxC (sep : List Char) : Nat → List Char → List (List Char)
  | _, [] => [[]]
  | 0, s => [s]
  | Nat.succ fuel, c :: cs =>
      if sep.isPrefixOf (c :: cs) then
        [] :: splitOnAuxC sep fuel ((c :: cs).drop sep.length)
      else
        match splitOnAuxC sep fuel cs with
        | [] => [[c]]
        | t :: ts => (c :: t) :: ts

/-- `s.split(sep)` for a non-empty separator (Python raises on an empty
separator; the scraper never passes one). -/
def pySplit (s sep : String) : List String :=
  (splitOnAuxC sep.data s.data.length s.data).map (fun l => { data := l })

/-- `s.strip()`: remove leading and trailing whitespace. -/
def pyStrip (s : String) : String :=
  { data := (((s.data.dropWhile Char.isWhitespace).reverse.dropWhile
      Char.isWhitespace).reverse) }

/-- `s.lower()` (ASCII case folding, which covers the scraper's inputs). -/
def pyLower (s : String) : String := { data := s.data.map Char.toLower }

/-- `s.startswith(p)`. -/
def pyStartsWith (s p : String) : Bool := p.data.isPrefixOf s.data

/-- `c in s` for a single character `c`. -/
def pyContainsChar (s : String) (c : Char) : Bool := s.data.contains c

/-- Join a list of character lists with a separator (`sep.join`). -/
def joinSep (sep : List Char) : List (List Char) → List Char
  | [] => []
  | [x] => x
  | x :: y :: xs => x ++ sep ++ joinSep sep (y :: xs)

/-- `sep.join(xs)`. -/
def pyJoin (sep : String) (xs : List String) : String :=
  { data := joinSep sep.data (xs.map String.data) }

/-! ### Model of `urllib.parse.urljoin`

`urljoin` is a standard-library collaborator.  We model its behaviour on the
cases the scraper exercises: absolute URLs, scheme-relative (`//...`),
root-relative (`/...`) and plain relative references, without dot-segment
normalisation. -/

/-- Whether a URL reference carries a scheme (contains `://`). -/
def hasScheme (u : String) : Bool := (pySplit u "://").length > 1

/-- The `scheme:` part of a URL (empty for scheme-less references). -/
def schemePart (u : String) : String :=
  if hasScheme u then (pySplit u "//").headD "" else ""

/-- The `scheme://host` part of a URL (empty for scheme-less references). -/
def schemeHostOf (u : String) : String :=
  if hasScheme u then pyJoin "/" ((pySplit u "/").take 3) else ""

/-- The path part of a URL: everything after `scheme://host`,
with its leading slash; a scheme-less reference is all path. -/
def pathOf (u : String) : String :=
  if hasScheme u then
    match (pySplit u "/").drop 3 with
    | [] => ""
    | rest => "/" ++ pyJoin "/" rest
  else u

/-- The base path with its last segment removed (RFC 3986 merge step). -/
def dirOf (bpath : String) : String :=
  pyJoin "/" ((pySplit bpath "/").dropLast)

/-- RFC 3986 path merge: resolve a relative reference against a base path. -/
def mergePaths (bpath rel : String) : String :=
  if bpath = "" then "/" ++ rel
  else if (pySplit bpath "/").length = 1 then rel
  else dirOf bpath ++ "/" ++ rel

/-- Model of `urllib.parse.urljoin base url`. -/
def urljoin (base url : String) : String :=
  if base = "" then url
  else if url = "" then base
  else if hasScheme url then url
  else if pyStartsWith url "//" then schemePart base ++ url
  else if pyStartsWith url "/" then schemeHostOf base ++ url
  else schemeHostOf base ++ mergePaths (pathOf base) url

/-! ### `can_fetch` (PolicyGate) -/

/-- `'/'.join(url.split('/')[:3])`: the scheme+host prefix of a URL. -/
def baseOf (url : String) : String :=
  pyJoin "/" ((pySplit url "/").take 3)

/-- `urljoin(base, "robots.txt")`: the site's policy-file location. -/
def robotsUrlOf (url : String) : String := urljoin (baseOf url) "robots.txt"

/-- Result of `RobotFileParser.read()` followed by
`rp.can_fetch(user_agent, url)`: `none` when the read raised (the exception
propagates to the caller), otherwise the decision.  Mirrors
`urllib/robotparser.py`: an `HTTPError` 401/403 sets `disallow_all` (deny),
another 4xx sets `allow_all` (allow), a 5xx or a network error re-raises, an
undecodable body raises `UnicodeDecodeError`, and a decoded body is parsed
into rules that decide. -/
def robotsDecision (o : UrlopenOutcome) (user_agent url : String) :
    Option Bool :=
  match o with
  | .netError => none
  | .httpError code =>
      if code = 401 ∨ code = 403 then some false
      else if 400 ≤ code ∧ code < 500 then some true
      else none
  | .undecodable => none
  | .parsed rules => some (rules user_agent url)

/-- `can_fetch(url, user_agent)`: reads the site's robots.txt and returns
whether `user_agent` may fetch `url`; an exception raised out of the read
resolves to `false` (the `except` branch: "safer default"), while a read
that returns normally yields the robot parser's decision. -/
def can_fetch (env : NetEnv) (url : String) (user_agent : String) : Bool :=
  match robotsDecision (env.robotsRead (robotsUrlOf url)) user_agent url with
  | none => false
  | some d => d

/-- The default user agent of `can_fetch` (`user_agent: str = "*"`). -/
def defaultAgent : String := "*"

/-- The fixed identifying user agent sent with every page GET. -/
def botAgent : String := "Mozilla/5.0 (NewsScraperBot)"

/-! ### `fetch_html` (Fetcher) -/

/-- `fetch_html(url)`: checks the policy gate (with the default agent),
sends a single GET with the bot user agent, raises for a 4xx/5xx status,
sleeps `random.uniform(1, 3)` on success, and returns the parsed document;
every failure path returns `none`.  The second component is the trace of
observable effects, in order. -/
def fetch_html (env : NetEnv) (url : String) : Option Document × List Effect :=
  if can_fetch env url defaultAgent = false then
    (none, [.policyCheck defaultAgent url])
  else
    match env.httpGet url botAgent with
    | .error =>
        (none, [.policyCheck defaultAgent url, .httpGet url botAgent])
    | .response status text =>
        if 400 ≤ status ∧ status < 600 then
          (none, [.policyCheck defaultAgent url, .httpGet url botAgent])
        else
          (some (env.parseHtml text),
           [.policyCheck defaultAgent url, .httpGet url botAgent,
            .sleepUniform 1 3])

/-! ### `scrape_headlines` (Extractor) -/

/-- Python truthiness of the optional keyword argument: `if keyword ...`
is taken when the keyword is present and non-empty. -/
def kwTruthy : Option String → Bool
  | none => false
  | some s => s ≠ ""

/-- Case-insensitive substring test: `keyword.lower() in title.lower()`. -/
def containsCI (title keyword : String) : Bool :=
  decide ((pyLower keyword).data <:+: (pyLower title).data)

/-- The body of the extraction loop for one anchor element: trim the text,
skip the element when title or href is empty/absent, resolve the href
against the page URL, apply the optional keyword filter, and build the
record (with `time` always `None`). -/
def anchorRecord (source_name url : String) (keyword : Option String)
    (item : Anchor) : Option HeadlineRecord :=
  let title := pyStrip item.text
  match item.href with
  | none => none
  | some link =>
      if title = "" ∨ link = "" then none
      else
        let full_url := urljoin url link
        if kwTruthy keyword ∧ ¬ containsCI title (keyword.getD "") then none
        else some { source := source_name, title := title, url := full_url,
                    time := none }

/-- The extraction loop of `scrape_headlines` over all anchors of the
document, in document order. -/
def extractHeadlines (source_name url : String) (keyword : Option String)
    (doc : List Anchor) : List HeadlineRecord :=
  doc.filterMap (anchorRecord source_name url keyword)

/-- `scrape_headlines(source_name, url, keyword)`: fetch the page and run
the extraction loop; when the fetch yields nothing, return the empty list.
The second component is the effect trace of the fetch. -/
def scrape_headlines (env : NetEnv) (source_name url : String)
    (keyword : Option String) : List HeadlineRecord × List Effect :=
  match fetch_html env url with
  | (none, tr) => ([], tr)
  | (some doc, tr) => (extractHeadlines source_name url keyword doc, tr)

/-! ### `save_results` (persistence) -/

/-- A JSON value, as built by `json.dump` from the scraper's dicts:
objects keep the dict's key insertion order. -/
inductive JVal where
  | null
  | str (s : String)
  | arr (xs : List JVal)
  | obj (fields : List (String × JVal))

/-- The JSON object `json.dump` writes for one headline record: keys in the
dict's insertion order `source, title, url, time`, with `None` as `null`. -/
def recordToJson (r : HeadlineRecord) : JVal :=
  .obj [("source", .str r.source), ("title", .str r.title),
        ("url", .str r.url),
        ("time", match r.time with | none => .null | some s => .str s)]

/-- The CSV row `pandas.DataFrame(...).to_csv` writes for one record
(`None` becomes an empty cell, no index column). -/
def recordToRow (r : HeadlineRecord) : List String :=
  [r.source, r.title, r.url, r.time.getD ""]

/-- The content of the output file written by `save_results`. -/
inductive FileContent where
  | json (v : JVal)
  | csv (header : List String) (rows : List (List String))

/-- A completed file write: destination path and content. -/
structure FileWrite where
  path : String
  content : FileContent

/-- `save_results(data, output, fmt)`: serialize the records as JSON or CSV
to the output path; an unsupported format logs an error and writes nothing
(`none`). -/
def save_results (data : List HeadlineRecord) (output : String)
    (fmt : String) : Option FileWrite :=
  if fmt = "json" then
    some { path := output, content := .json (.arr (data.map recordToJson)) }
  else if fmt = "csv" then
    some { path := output,
           content := .csv ["source", "title", "url", "time"]
                          (data.map recordToRow) }
  else none

/-! ### `main` (Pipeline) -/

/-- `"=" in source_entry`: a source token is valid when it contains the
`name=url` separator. -/
def validToken (t : String) : Bool := pyContainsChar t '='

/-- `source_entry.split("=", 1)` followed by `.strip()` on both halves:
the name before the first `=` and the URL after it. -/
def parseToken (t : String) : String × String :=
  let parts := pySplit t "="
  (pyStrip (parts.headD ""), pyStrip (pyJoin "=" parts.tail))

/-- The aggregation loop of `main`: iterate the source tokens in order, skip
(with a warning) any token without `=`, and extend `all_headlines` with each
source's scraped records. -/
def runPipeline (env : NetEnv) (tokens : List String)
    (keyword : Option String) : List HeadlineRecord :=
  tokens.foldl
    (fun all_headlines t =>
      if validToken t then
        all_headlines ++
          (scrape_headlines env (parseToken t).1 (parseToken t).2 keyword).1
      else all_headlines)
    []

/-- The outcome of one `main` run: either the aggregate was empty and the
run ends with the "No headlines found." warning, never calling
`save_results`; or `save_results` was invoked and produced this write. -/
inductive MainOutcome where
  | noHeadlines
  | saved (w : Option FileWrite)

/-- `main` after argument parsing: aggregate all sources, and either warn
and return on an empty aggregate, or persist the aggregate. -/
def mainRun (env : NetEnv) (tokens : List String) (keyword : Option String)
    (output : String) (fmt : String) : MainOutcome :=
  let all_headlines := runPipeline env tokens keyword
  if all_headlines = [] then .noHeadlines
  else .saved (save_results all_headlines output fmt)

/-! ### Reading persisted JSON back (for the round-trip property) -/

/-- Look a key up in a JSON object's field list (first match). -/
def jlookup (fields : List (String × JVal)) (k : String) : Option JVal :=
  match fields with
  | [] => none
  | (k2, v) :: rest => if k2 = k then some v else jlookup rest k

/-- Read the `source`/`title`/`url` string fields back out of one parsed
JSON object. -/
def readRecordBack (v : JVal) : Option (String × String × String) :=
  match v with
  | .obj fs =>
      match jlookup fs "source", jlookup fs "title", jlookup fs "url" with
      | some (.str s), some (.str t), some (.str u) => some (s, t, u)
      | _, _, _ => none
  | _ => none

/-- Read a list of parsed JSON objects back as records, failing if any
element is not a record object. -/
def readListBack : List JVal → Option (List (String × String × String))
  | [] => some []
  | v :: vs =>
      match readRecordBack v, readListBack vs with
      | some t, some ts => some (t :: ts)
      | _, _ => none

/-- Read the whole persisted JSON array back as a list of
(source, title, url) triples. -/
def readResultsBack (v : JVal) : Option (List (String × String × String)) :=
  match v with
  | .arr xs => readListBack xs
  | _ => none

/-! ### Helper lemmas -/

theorem string_append_ne_empty (a b : String) (hb : b ≠ "") : a ++ b ≠ "" := by
  intro h
  apply hb
  apply String.ext
  have hd := congrArg String.data h
  simp only [String.data_append] at hd
  exact (List.append_eq_nil.mp hd).2

theorem mergePaths_ne_empty (bpath rel : String) (h : rel ≠ "") :
    mergePaths bpath rel ≠ "" := by
  unfold mergePaths
  split_ifs with h1 h2
  · exact string_append_ne_empty "/" rel h
  · exact h
  · exact string_append_ne_empty (dirOf bpath ++ "/") rel h

theorem urljoin_ne_empty (base url : String) (h : url ≠ "") :
    urljoin base url ≠ "" := by
  unfold urljoin
  split_ifs with h1 h2 h3 h4
  · exact h
  · exact h
  · exact string_append_ne_empty _ _ h
  · exact string_append_ne_empty _ _ h
  · exact string_append_ne_empty _ _ (mergePaths_ne_empty (pathOf base) url h)

/-- Shape of a record successfully produced by the extraction loop body. -/
theorem anchorRecord_some_shape (source_name url : String)
    (keyword : Option String) (item : Anchor) (r : HeadlineRecord)
    (h : anchorRecord source_name url keyword item = some r) :
    ∃ link, item.href = some link ∧ pyStrip item.text ≠ "" ∧ link ≠ "" ∧
      r = { source := source_name, title := pyStrip item.text,
            url := urljoin url link, time := none } := by
  cases ha : item.href with
  | none => simp [anchorRecord, ha] at h
  | some link =>
      refine ⟨link, rfl, ?_⟩
      simp only [anchorRecord, ha] at h
      split_ifs at h with h1 h2
      · push_neg at h1
        exact ⟨h1.1, h1.2, (Option.some_injective _ h).symm⟩

/-! ### Concrete environments used by the witnesses -/

/-- Parsed robots rules that allow every agent to fetch every URL. -/
def allowRules : String → String → Bool := fun _ _ => true

/-- A world in which robots.txt allows everything, every GET succeeds with
status 200, and the two demo pages contain two and one anchor. -/
def demoEnv : NetEnv where
  robotsRead := fun _ => .parsed allowRules
  httpGet := fun url _ =>
    if url = "https://a.ex/n" then .response 200 "pageA" else .response 200 "pageB"
  parseHtml := fun text =>
    if text = "pageA" then
      [{ text := "a1", href := some "/1" }, { text := "a2", href := some "/2" }]
    else [{ text := "b1", href := some "/1" }]

/-- A world in which every robots.txt read fails with a network error. -/
def denyEnv : NetEnv where
  robotsRead := fun _ => .netError
  httpGet := fun _ _ => .error
  parseHtml := fun _ => []

/-- A world in which robots.txt allows everything but every GET fails. -/
def errorEnv : NetEnv where
  robotsRead := fun _ => .parsed allowRules
  httpGet := fun _ _ => .error
  parseHtml := fun _ => []

/-- A world in which every robots.txt request answers HTTP 404 (no policy
file on the site). -/
def notFoundEnv : NetEnv where
  robotsRead := fun _ => .httpError 404
  httpGet := fun _ _ => .response 200 "pageB"
  parseHtml := fun _ => []

/-- A world in which every robots.txt request answers HTTP 403. -/
def forbiddenEnv : NetEnv where
  robotsRead := fun _ => .httpError 403
  httpGet := fun _ _ => .error
  parseHtml := fun _ => []

/-! ### Claim theorems -/

/-- C1 counterexample: a non-200 response for the policy file — HTTP 404, a
site with no robots.txt — does NOT resolve to deny: `RobotFileParser.read`
catches the `HTTPError`, a 4xx other than 401/403 sets `allow_all`, and
`can_fetch` returns `true`. -/
theorem robots_not_found_allows :
    notFoundEnv.robotsRead (robotsUrlOf "https://a.ex/n") =
      .httpError 404 ∧
    can_fetch notFoundEnv "https://a.ex/n" "*" = true :=
  ⟨rfl, rfl⟩

/-- C1 (amended): `can_fetch` returns `false` exactly for the failures that
raise out of the read — a network error, a 5xx response, an undecodable
body — and for a 401/403 response (parsed as disallow-all); but a 4xx other
than 401/403 (e.g. a missing robots.txt, 404) resolves to allow, and a
decodable body's decision follows the leniently parsed rules rather than
defaulting to deny. -/
theorem can_fetch_failure_policy (env : NetEnv) (url user_agent : String) :
    (env.robotsRead (robotsUrlOf url) = .netError →
      can_fetch env url user_agent = false) ∧
    (env.robotsRead (robotsUrlOf url) = .undecodable →
      can_fetch env url user_agent = false) ∧
    (∀ code, env.robotsRead (robotsUrlOf url) = .httpError code →
      ((code = 401 ∨ code = 403) →
        can_fetch env url user_agent = false) ∧
      (¬(400 ≤ code ∧ code < 500) →
        can_fetch env url user_agent = false) ∧
      ((400 ≤ code ∧ code < 500) ∧ code ≠ 401 ∧ code ≠ 403 →
        can_fetch env url user_agent = true)) ∧
    (∀ rules, env.robotsRead (robotsUrlOf url) = .parsed rules →
      can_fetch env url user_agent = rules user_agent url) := by
  refine ⟨?_, ?_, ?_, ?_⟩
  · intro h
    simp [can_fetch, robotsDecision, h]
  · intro h
    simp [can_fetch, robotsDecision, h]
  · intro code h
    refine ⟨?_, ?_, ?_⟩
    · intro hc
      simp [can_fetch, robotsDecision, h, hc]
    · intro hr
      by_cases hc : code = 401 ∨ code = 403
      · simp [can_fetch, robotsDecision, h, hc]
      · simp [can_fetch, robotsDecision, h, hc, hr]
    · rintro ⟨hr, h1, h3⟩
      simp [can_fetch, robotsDecision, h, h1, h3, hr]
  · intro rules h
    simp [can_fetch, robotsDecision, h]

/-- C1 witness: concrete worlds exercising each branch — network error
denies, 404 allows, 403 denies, parsed allow-all rules allow. -/
theorem can_fetch_failure_policy_witness :
    can_fetch denyEnv "https://a.ex/n" "*" = false ∧
    can_fetch notFoundEnv "https://a.ex/n" "*" = true ∧
    can_fetch forbiddenEnv "https://a.ex/n" "*" = false ∧
    can_fetch demoEnv "https://a.ex/n" "*" = allowRules "*" "https://a.ex/n" :=
  ⟨(can_fetch_failure_policy denyEnv "https://a.ex/n" "*").1 rfl,
   ((can_fetch_failure_policy notFoundEnv "https://a.ex/n" "*").2.2.1
      404 rfl).2.2 (by decide),
   ((can_fetch_failure_policy forbiddenEnv "https://a.ex/n" "*").2.2.1
      403 rfl).1 (Or.inr rfl),
   (can_fetch_failure_policy demoEnv "https://a.ex/n" "*").2.2.2
      allowRules rfl⟩

/-- C2: when the policy gate denies a URL, `fetch_html` returns no content
and its effect trace contains no HTTP GET for any URL. -/
theorem denied_url_not_fetched (env : NetEnv) (url : String)
    (h : can_fetch env url defaultAgent = false) :
    (fetch_html env url).1 = none ∧
      ∀ e ∈ (fetch_html env url).2, ∀ u ua, e ≠ Effect.httpGet u ua := by
  unfold fetch_html
  rw [if_pos h]
  refine ⟨rfl, ?_⟩
  intro e he u ua
  simp only [List.mem_singleton] at he
  subst he
  intro hcontra
  exact Effect.noConfusion hcontra

/-- C2 witness: with every robots read raising, `fetch_html` on a concrete
URL returns nothing and performs no GET. -/
theorem denied_url_not_fetched_witness :
    (fetch_html denyEnv "https://a.ex/n").1 = none ∧
      ∀ e ∈ (fetch_html denyEnv "https://a.ex/n").2, ∀ u ua,
        e ≠ Effect.httpGet u ua :=
  denied_url_not_fetched denyEnv "https://a.ex/n" rfl

/-- C3: every record the extractor emits has a non-empty title, a non-empty
URL and an absent (`none`) time; and an anchor whose trimmed text is empty
or whose href is absent or empty produces no record at all. -/
theorem record_invariants :
    (∀ (source_name url : String) (keyword : Option String)
        (doc : List Anchor) (r : HeadlineRecord),
        r ∈ extractHeadlines source_name url keyword doc →
        r.title ≠ "" ∧ r.url ≠ "" ∧ r.time = none) ∧
    (∀ (source_name url : String) (keyword : Option String) (item : Anchor),
        pyStrip item.text = "" ∨ item.href = none ∨ item.href = some "" →
        anchorRecord source_name url keyword item = none) := by
  constructor
  · intro source_name url keyword doc r hr
    rcases List.mem_filterMap.mp hr with ⟨item, _, hrec⟩
    rcases anchorRecord_some_shape source_name url keyword item r hrec with
      ⟨link, _, htitle, hlink, hshape⟩
    subst hshape
    exact ⟨htitle, urljoin_ne_empty url link hlink, rfl⟩
  · intro source_name url keyword item hbad
    cases ha : item.href with
    | none => simp [anchorRecord, ha]
    | some link =>
        rcases hbad with ht | hn | he
        · simp [anchorRecord, ha, ht]
        · rw [ha] at hn; exact Option.noConfusion hn
        · rw [ha] at he
          have : link = "" := Option.some_injective _ he
          simp [anchorRecord, ha, this]

/-- C3 witness: a concrete valid anchor produces a record satisfying the
invariants, and concrete degenerate anchors produce no record. -/
theorem record_invariants_witness :
    (({ source := "s", title := "T", url := "https://e.ex/x",
        time := none } : HeadlineRecord).title ≠ "" ∧
      ({ source := "s", title := "T", url := "https://e.ex/x",
         time := none } : HeadlineRecord).url ≠ "" ∧
      ({ source := "s", title := "T", url := "https://e.ex/x",
         time := none } : HeadlineRecord).time = none) ∧
    anchorRecord "s" "https://e.ex/t" none
        { text := "  ", href := some "/x" } = none ∧
    anchorRecord "s" "https://e.ex/t" none { text := "T", href := none } = none :=
  ⟨record_invariants.1 "s" "https://e.ex/t" none
      [{ text := "T", href := some "/x" }]
      { source := "s", title := "T", url := "https://e.ex/x", time := none }
      (by decide),
   record_invariants.2 "s" "https://e.ex/t" none
      { text := "  ", href := some "/x" } (Or.inl (by decide)),
   record_invariants.2 "s" "https://e.ex/t" none
      { text := "T", href := none } (Or.inr (Or.inl rfl))⟩

/-- C4: for an anchor with non-empty trimmed title and non-empty href and a
non-empty keyword, a record is emitted exactly when the keyword is a
case-insensitive substring of the title; an absent or empty keyword applies
no filtering at all. -/
theorem keyword_filter_iff :
    (∀ (source_name url : String) (item : Anchor) (link k : String),
        item.href = some link → pyStrip item.text ≠ "" → link ≠ "" → k ≠ "" →
        (anchorRecord source_name url (some k) item).isSome =
          containsCI (pyStrip item.text) k) ∧
    (∀ (source_name url : String) (item : Anchor) (keyword : Option String),
        kwTruthy keyword = false →
        anchorRecord source_name url keyword item =
          anchorRecord source_name url none item) := by
  constructor
  · intro source_name url item link k ha htitle hlink hk
    simp only [anchorRecord, ha]
    rw [if_neg (by push_neg; exact ⟨htitle, hlink⟩)]
    by_cases hc : containsCI (pyStrip item.text) k = true
    · rw [if_neg (by simp [hc])]
      simp [hc]
    · rw [if_pos ⟨by simp [kwTruthy, hk], by simp [hc]⟩]
      simp only [Bool.not_eq_true] at hc
      simp [hc]
  · intro source_name url item keyword hkw
    cases ha : item.href with
    | none => simp [anchorRecord, ha]
    | some link =>
        simp only [anchorRecord, ha]
        by_cases h1 : pyStrip item.text = "" ∨ link = ""
        · rw [if_pos h1, if_pos h1]
        · rw [if_neg h1, if_neg h1, if_neg (by simp [hkw]),
              if_neg (by simp [kwTruthy])]

/-- C4 witness: the spec's example — title "Stocks Rally" is retained for
keyword "stock" and rejected for keyword "bond"; an empty keyword behaves
like no keyword. -/
theorem keyword_filter_iff_witness :
    ((anchorRecord "s" "https://e.ex/t" (some "stock")
        { text := "Stocks Rally", href := some "/x" }).isSome =
      containsCI (pyStrip "Stocks Rally") "stock") ∧
    ((anchorRecord "s" "https://e.ex/t" (some "bond")
        { text := "Stocks Rally", href := some "/x" }).isSome =
      containsCI (pyStrip "Stocks Rally") "bond") ∧
    containsCI (pyStrip "Stocks Rally") "stock" = true ∧
    containsCI (pyStrip "Stocks Rally") "bond" = false ∧
    anchorRecord "s" "https://e.ex/t" (some "")
        { text := "Stocks Rally", href := some "/x" } =
      anchorRecord "s" "https://e.ex/t" none
        { text := "Stocks Rally", href := some "/x" } :=
  ⟨keyword_filter_iff.1 "s" "https://e.ex/t"
      { text := "Stocks Rally", href := some "/x" } "/x" "stock"
      rfl (by decide) (by decide) (by decide),
   keyword_filter_iff.1 "s" "https://e.ex/t"
      { text := "Stocks Rally", href := some "/x" } "/x" "bond"
      rfl (by decide) (by decide) (by decide),
   by decide, by decide,
   keyword_filter_iff.2 "s" "https://e.ex/t"
      { text := "Stocks Rally", href := some "/x" } (some "") (by decide)⟩

/-- The aggregation fold over source tokens equals the concatenation of the
per-valid-token outputs. -/
theorem foldl_filter_join {α β : Type} (p : α → Bool) (g : α → List β) :
    ∀ (ts : List α) (acc : List β),
      ts.foldl (fun a t => if p t then a ++ g t else a) acc
        = acc ++ ((ts.filter p).map g).flatten := by
  intro ts
  induction ts with
  | nil => intro acc; simp
  | cons t ts ih =>
      intro acc
      by_cases hv : p t <;> simp [hv, ih, List.filter_cons]

/-- C5: on a list of valid source tokens, the pipeline's aggregate is the
concatenation of each source's scraped records, in declaration order and
preserving within-source order. -/
theorem pipeline_concat_in_order (env : NetEnv) (tokens : List String)
    (keyword : Option String) (h : ∀ t ∈ tokens, validToken t = true) :
    runPipeline env tokens keyword =
      (tokens.map (fun t =>
        (scrape_headlines env (parseToken t).1 (parseToken t).2 keyword).1)).flatten := by
  unfold runPipeline
  rw [foldl_filter_join validToken _ tokens [], List.filter_eq_self.mpr h]
  simp

/-- C5 witness: two concrete sources yielding `[a1, a2]` and `[b1]` produce
exactly `[a1, a2, b1]`. -/
theorem pipeline_concat_in_order_witness :
    (runPipeline demoEnv ["A=https://a.ex/n", "B=https://b.ex/n"] none =
      ((["A=https://a.ex/n", "B=https://b.ex/n"] : List String).map (fun t =>
        (scrape_headlines demoEnv (parseToken t).1 (parseToken t).2 none).1)).flatten) ∧
    runPipeline demoEnv ["A=https://a.ex/n", "B=https://b.ex/n"] none =
      [{ source := "A", title := "a1", url := "https://a.ex/1", time := none },
       { source := "A", title := "a2", url := "https://a.ex/2", time := none },
       { source := "B", title := "b1", url := "https://b.ex/1", time := none }] :=
  ⟨pipeline_concat_in_order demoEnv ["A=https://a.ex/n", "B=https://b.ex/n"]
      none (by decide),
   by decide⟩

/-- A concatenation of all-empty lists is empty. -/
theorem flatten_of_all_nil {β : Type} (L : List (List β)) (h : ∀ l ∈ L, l = []) :
    L.flatten = [] := by
  induction L with
  | nil => rfl
  | cons x xs ih =>
      have hx : x = [] := h x (List.mem_cons_self x xs)
      have hxs : ∀ l ∈ xs, l = [] := fun l hl => h l (List.mem_cons_of_mem x hl)
      simp [hx, ih hxs]

/-- C6: when the aggregate of headline records is empty, `main` stops at the
"No headlines found." warning and never invokes `save_results` (no file of
any kind is written); in particular this happens when the policy gate
denies every URL. -/
theorem empty_aggregate_skips_save :
    (∀ (env : NetEnv) (tokens : List String) (keyword : Option String)
        (output fmt : String),
        runPipeline env tokens keyword = [] →
        mainRun env tokens keyword output fmt = .noHeadlines) ∧
    (∀ (env : NetEnv) (tokens : List String) (keyword : Option String)
        (output fmt : String),
        (∀ u a, can_fetch env u a = false) →
        mainRun env tokens keyword output fmt = .noHeadlines) := by
  have main_of_empty : ∀ (env : NetEnv) (tokens : List String)
      (keyword : Option String) (output fmt : String),
      runPipeline env tokens keyword = [] →
      mainRun env tokens keyword output fmt = .noHeadlines := by
    intro env tokens kw out fmt h
    simp [mainRun, h]
  constructor
  · exact main_of_empty
  · intro env tokens kw out fmt h
    apply main_of_empty
    unfold runPipeline
    rw [foldl_filter_join validToken _ tokens []]
    have hs : ∀ t : String,
        (scrape_headlines env (parseToken t).1 (parseToken t).2 kw).1 = [] := by
      intro t
      have hc := h (parseToken t).2 defaultAgent
      simp [scrape_headlines, fetch_html, hc]
    apply flatten_of_all_nil
    intro l hl
    rcases List.mem_map.mp hl with ⟨t, _, hgt⟩
    rw [← hgt]
    exact hs t

/-- C6 witness: with every robots read raising, a run over a concrete
source list produces no file: the outcome is the warning, not a write. -/
theorem empty_aggregate_skips_save_witness :
    mainRun denyEnv ["A=https://a.ex/n", "B=https://b.ex/n"] none
        "headlines.json" "json" = .noHeadlines :=
  empty_aggregate_skips_save.2 denyEnv ["A=https://a.ex/n", "B=https://b.ex/n"]
    none "headlines.json" "json" (fun _ _ => rfl)

/-- C7: tokens without the `=` separator are dropped and never reach the
pipeline (the pipeline's output only depends on the valid tokens), and the
number of processed sources is the token count minus the malformed count. -/
theorem malformed_tokens_dropped (env : NetEnv) (tokens : List String)
    (keyword : Option String) :
    runPipeline env tokens keyword =
      runPipeline env (tokens.filter validToken) keyword ∧
    (tokens.filter validToken).length =
      tokens.length - (tokens.filter (fun t => ! validToken t)).length := by
  constructor
  · unfold runPipeline
    have hff : (tokens.filter validToken).filter validToken =
        tokens.filter validToken :=
      List.filter_eq_self.mpr (fun t ht => List.of_mem_filter ht)
    rw [foldl_filter_join validToken _ tokens [],
        foldl_filter_join validToken _ (tokens.filter validToken) [], hff]
  · have hsum : (tokens.filter validToken).length +
        (tokens.filter (fun t => ! validToken t)).length = tokens.length := by
      induction tokens with
      | nil => rfl
      | cons t ts ih =>
          by_cases hv : validToken t <;>
            simp [List.filter_cons, hv, ← ih] <;> omega
    omega

/-- Whether an effect is the politeness sleep. -/
def isSleep : Effect → Bool
  | .sleepUniform _ _ => true
  | _ => false

/-- C8: when the fetch succeeds, the politeness delay (with the uniform
random bounds 1–3) occurs exactly once, and it is the last effect before
`fetch_html` returns; when the fetch fails in any way, no delay occurs. -/
theorem politeness_delay_once (env : NetEnv) (url : String) :
    ((fetch_html env url).1.isSome = true →
      (fetch_html env url).2.filter isSleep = [Effect.sleepUniform 1 3] ∧
      (fetch_html env url).2.getLast? = some (Effect.sleepUniform 1 3)) ∧
    ((fetch_html env url).1 = none →
      (fetch_html env url).2.filter isSleep = []) := by
  unfold fetch_html
  by_cases hc : can_fetch env url defaultAgent = false
  · rw [if_pos hc]
    exact ⟨fun h => by simp at h, fun _ => rfl⟩
  · rw [if_neg hc]
    cases hg : env.httpGet url botAgent with
    | error => exact ⟨fun h => by simp at h, fun _ => rfl⟩
    | response status text =>
        dsimp only
        by_cases hs : 400 ≤ status ∧ status < 600
        · rw [if_pos hs]
          exact ⟨fun h => by simp at h, fun _ => rfl⟩
        · rw [if_neg hs]
          exact ⟨fun _ => ⟨rfl, rfl⟩, fun h => Option.noConfusion h⟩

/-- C8 witness: a successful concrete fetch sleeps exactly once as the last
effect; a failed concrete fetch never sleeps. -/
theorem politeness_delay_once_witness :
    ((fetch_html demoEnv "https://a.ex/n").2.filter isSleep =
        [Effect.sleepUniform 1 3] ∧
      (fetch_html demoEnv "https://a.ex/n").2.getLast? =
        some (Effect.sleepUniform 1 3)) ∧
    (fetch_html errorEnv "https://a.ex/n").2.filter isSleep = [] :=
  ⟨(politeness_delay_once demoEnv "https://a.ex/n").1 rfl,
   (politeness_delay_once errorEnv "https://a.ex/n").2 rfl⟩

/-- C10: the policy decision is always computed for the wildcard agent `*`
(the default argument of `can_fetch`), while every page GET is sent with
the distinct user agent `Mozilla/5.0 (NewsScraperBot)`. -/
theorem policy_agent_vs_fetch_agent (env : NetEnv) (url : String) :
    (fetch_html env url).2.head? =
      some (Effect.policyCheck defaultAgent url) ∧
    (∀ e ∈ (fetch_html env url).2, ∀ u ua,
      e = Effect.httpGet u ua → ua = botAgent) ∧
    defaultAgent = "*" ∧ botAgent = "Mozilla/5.0 (NewsScraperBot)" ∧
    defaultAgent ≠ botAgent := by
  unfold fetch_html
  by_cases hc : can_fetch env url defaultAgent = false
  · rw [if_pos hc]
    refine ⟨rfl, ?_, rfl, rfl, by decide⟩
    intro e he u ua heq
    subst heq
    simp at he
  · rw [if_neg hc]
    cases hg : env.httpGet url botAgent with
    | error =>
        refine ⟨rfl, ?_, rfl, rfl, by decide⟩
        intro e he u ua heq
        subst heq
        simp at he
        exact he.2
    | response status text =>
        dsimp only
        by_cases hs : 400 ≤ status ∧ status < 600
        · rw [if_pos hs]
          refine ⟨rfl, ?_, rfl, rfl, by decide⟩
          intro e he u ua heq
          subst heq
          simp at he
          exact he.2
        · rw [if_neg hs]
          refine ⟨rfl, ?_, rfl, rfl, by decide⟩
          intro e he u ua heq
          subst heq
          simp at he
          exact he.2

/-- C10 witness: on a concrete fetch the first effect is the policy check
for `*`, the GET effect in the trace carries the bot agent, and the two
agent strings differ. -/
theorem policy_agent_vs_fetch_agent_witness :
    (fetch_html demoEnv "https://a.ex/n").2.head? =
      some (Effect.policyCheck defaultAgent "https://a.ex/n") ∧
    botAgent = "Mozilla/5.0 (NewsScraperBot)" ∧ defaultAgent ≠ botAgent ∧
    botAgent = botAgent :=
  ⟨(policy_agent_vs_fetch_agent demoEnv "https://a.ex/n").1,
   (policy_agent_vs_fetch_agent demoEnv "https://a.ex/n").2.2.2.1,
   (policy_agent_vs_fetch_agent demoEnv "https://a.ex/n").2.2.2.2,
   (policy_agent_vs_fetch_agent demoEnv "https://a.ex/n").2.1
     (Effect.httpGet "https://a.ex/n" botAgent) (by decide)
     "https://a.ex/n" botAgent rfl⟩

/-- Reading one persisted record object back recovers its three string
fields. -/
theorem readRecordBack_recordToJson (r : HeadlineRecord) :
    readRecordBack (recordToJson r) = some (r.source, r.title, r.url) := rfl

/-- Reading a persisted record array back recovers all the triples. -/
theorem readListBack_map (rs : List HeadlineRecord) :
    readListBack (rs.map recordToJson) =
      some (rs.map fun r => (r.source, r.title, r.url)) := by
  induction rs with
  | nil => rfl
  | cons r rs ih =>
      simp [readListBack, readRecordBack_recordToJson, ih]

/-- C9: persisting N records as JSON and parsing the result back yields
exactly N objects whose `source`/`title`/`url` fields equal the originals,
whatever the `time` values are. -/
theorem json_round_trip (data : List HeadlineRecord) (output : String) :
    ∃ v, save_results data output "json" =
        some { path := output, content := .json v } ∧
      readResultsBack v = some (data.map fun r => (r.source, r.title, r.url)) ∧
      (data.map fun r => (r.source, r.title, r.url)).length = data.length := by
  refine ⟨.arr (data.map recordToJson), rfl, ?_, by simp⟩
  simp [readResultsBack, readListBack_map]

end NewsScraper
